import Mathlib

/-!
Shallow embedding of the mcp-bitbucket MCP server (src/index.ts and the
legacy server file) for verification of its natural-language specification.

Remote HTTP calls are modelled by oracle functions passed explicitly to each
operation; each operation also returns the ordered list of requests it issued,
so that "zero network calls" and "never issues a branch search" style
properties are statable.  JavaScript falsiness of the optional arguments is
modelled explicitly: an absent string behaves like `""` and an absent number
behaves like `0` wherever the source tests truthiness.
-/

namespace McpBitbucket

/-- Outcome of one `fetch` call: a 2xx response carrying a decoded payload,
a non-2xx response carrying status and status text, or a thrown error. -/
inductive Resp (α : Type) where
  | ok (val : α)
  | httpErr (status : Nat) (statusText : String)
  | exn (msg : String)
deriving Repr, DecidableEq

/-- JS `x || dflt` for an optional number (`0` and `undefined` are falsy). -/
def jsOrNat (v : Option Nat) (dflt : Nat) : Nat :=
  match v with
  | some n => if n = 0 then dflt else n
  | none => dflt

/-- JS `x || dflt` for an optional string (`""` and `undefined` are falsy). -/
def jsOrStr (v : Option String) (dflt : String) : String :=
  match v with
  | some s => if s = "" then dflt else s
  | none => dflt

/-- JS truthiness of an optional string: defined and nonempty. -/
def truthyStr (v : Option String) : Bool :=
  match v with
  | some s => s != ""
  | none => false

/-- JS `x || null` for an optional string (`""` collapses to null). -/
def jsNullable (v : Option String) : Option String :=
  match v with
  | some s => if s = "" then none else some s
  | none => none

/-- The zod check `z.number().min(lo)[.max(hi)].optional()`: an absent value
passes, a present value must lie in the declared bounds. -/
def validNum (lo : Nat) (hi : Option Nat) : Option Nat → Bool
  | none => true
  | some n => decide (lo ≤ n) && (match hi with | some h => decide (n ≤ h) | none => true)

/-- The shared zod input schema of the listing tools:
`limit : min 1, max 100, optional` and `page : min 1, optional`.
The MCP framework enforces this schema before the tool handler runs. -/
def validateLimitPage (limit page : Option Nat) : Bool :=
  validNum 1 (some 100) limit && validNum 1 none page

/-! ## Correlator: PR id extraction from a commit message
Source: `const prIdMatch = commitMessage?.match(/#(\d+)/);`
`const pr_id = prIdMatch ? parseInt(prIdMatch[1]) : null;` -/

/-- The greedy `\d+` part of the regex: longest digit prefix of the input. -/
def takeDigits : List Char → List Char
  | [] => []
  | c :: cs => if c.isDigit then c :: takeDigits cs else []

/-- First match of the regex `#(\d+)` over a character list: scan left to
right; at a `#` immediately followed by at least one decimal digit, return
the maximal digit run after the `#`; otherwise keep scanning. -/
def findHashMatch : List Char → Option (List Char)
  | [] => none
  | c :: cs =>
    if c = '#' then
      if (takeDigits cs).isEmpty then findHashMatch cs else some (takeDigits cs)
    else findHashMatch cs

/-- `parseInt` on a nonempty string of decimal digits. -/
def digitsToNat (ds : List Char) : Nat :=
  ds.foldl (fun n c => 10 * n + (c.toNat - '0'.toNat)) 0

/-- The derived pull-request id of a (possibly absent) commit message:
first `#<digits>` token interpreted in decimal, else null. -/
def extractPrId (msg : Option String) : Option Nat :=
  msg.bind fun m => (findHashMatch m.data).map digitsToNat

/-- Decidable check that a character list contains a `#` immediately
followed by a decimal digit somewhere. -/
def hasPrRefB : List Char → Bool
  | [] => false
  | c :: cs => (c == '#' && cs.head?.any Char.isDigit) || hasPrRefB cs

/-! ## list_pipelines -/

/-- The `target.commit` object of a raw pipeline payload; both fields may be
absent in the upstream JSON. -/
structure PipeCommit where
  hash : Option String
  message : Option String
deriving Repr, DecidableEq

/-- The `target` object of a raw pipeline payload. -/
structure PipeTarget where
  ref_name : Option String
  commit : Option PipeCommit
deriving Repr, DecidableEq

/-- A raw pipeline as delivered by the pipelines listing endpoint. -/
structure RawPipeline where
  state : String
  created_on : String
  completed_on : Option String
  run_number : Nat
  duration_in_seconds : Nat
  target : Option PipeTarget
deriving Repr, DecidableEq

/-- The payload of a commit-lookup response (`commitData.message`). -/
structure CommitInfo where
  message : String
deriving Repr, DecidableEq

/-- `pipeline.target?.commit?.message`. -/
def rawMessage (p : RawPipeline) : Option String :=
  (p.target.bind PipeTarget.commit).bind PipeCommit.message

/-- `pipeline.target?.commit?.hash`. -/
def rawHash (p : RawPipeline) : Option String :=
  (p.target.bind PipeTarget.commit).bind PipeCommit.hash

/-- `if (!commitMessage && pipeline.target?.commit?.hash)`: the commit-lookup
request is issued exactly when the payload's message is falsy and its hash is
truthy. -/
def needsLookup (p : RawPipeline) : Bool :=
  !(truthyStr (rawMessage p)) && truthyStr (rawHash p)

/-- Message obtained from a successful commit lookup, if one was issued and
succeeded; a non-2xx response or a thrown error yields nothing (the code
skips the update on `!response.ok` and swallows exceptions). -/
def lookupResult (lookup : String → Resp CommitInfo) (p : RawPipeline) : Option String :=
  if needsLookup p then
    match rawHash p with
    | some h =>
      match lookup h with
      | .ok ci => some ci.message
      | _ => none
    | none => none
  else none

/-- The commit message the correlation heuristic finally runs on. -/
def resolvedMessage (lookup : String → Resp CommitInfo) (p : RawPipeline) : Option String :=
  match lookupResult lookup p with
  | some m => some m
  | none => rawMessage p

/-- `pipeline.target.commit.message = commitMessage`, performed only after a
successful lookup and only when target and commit exist. -/
def setCommitMessage (m : String) (t : Option PipeTarget) : Option PipeTarget :=
  match t with
  | some tgt =>
    match tgt.commit with
    | some c => some { tgt with commit := some { c with message := some m } }
    | none => some tgt
  | none => none

/-- The projected pipeline record returned to the caller. -/
structure Pipeline where
  pr_id : Option Nat
  state : String
  created_on : String
  completed_on : Option String
  run_number : Nat
  duration_in_seconds : Nat
  target : Option PipeTarget
deriving Repr, DecidableEq

/-- Per-pipeline enrichment body of `list_pipelines`' `data.values.map`. -/
def processPipeline (lookup : String → Resp CommitInfo) (p : RawPipeline) : Pipeline :=
  { pr_id := extractPrId (resolvedMessage lookup p)
    state := p.state
    created_on := p.created_on
    completed_on := p.completed_on
    run_number := p.run_number
    duration_in_seconds := p.duration_in_seconds
    target :=
      match lookupResult lookup p with
      | some m => setCommitMessage m p.target
      | none => p.target }

/-- The commit hashes looked up while enriching one pipeline (a singleton
when a lookup is needed, else empty). -/
def pipelineLookupReqs (p : RawPipeline) : List String :=
  if needsLookup p then
    match rawHash p with
    | some h => [h]
    | none => []
  else []

/-- Query string parameters of the pipelines listing request. -/
structure PipelinesQuery where
  pagelen : Nat
  page : Nat
  sort : String
  state : Option String
  target_ref : Option String
deriving Repr, DecidableEq

/-- A page of raw pipelines as returned by the listing endpoint. -/
structure PipelinesPage where
  size : Nat
  next : Option String
  previous : Option String
  values : List RawPipeline
deriving Repr, DecidableEq

/-- A network request issued by `list_pipelines`. -/
inductive PipeReq where
  | main (q : PipelinesQuery)
  | commitLookup (hash : String)
deriving Repr, DecidableEq

/-- Result of the `list_pipelines` tool. -/
inductive ListPipelinesResult where
  | invalidArg
  | fetchError (msg : String)
  | success (total_count : Nat) (page : Nat) (page_length : Nat)
      (next : Option String) (previous : Option String) (pipelines : List Pipeline)
deriving Repr, DecidableEq

/-- The pipelines listing URL parameters built by the handler. -/
def mkPipelinesQuery (state : Option String) (limit page : Option Nat)
    (target_branch : Option String) : PipelinesQuery :=
  { pagelen := jsOrNat limit 10
    page := jsOrNat page 1
    sort := "-created_on"
    state := if truthyStr state then state else none
    target_ref := if truthyStr target_branch then target_branch else none }

/-- The `list_pipelines` tool: zod validation, main listing fetch, then
per-pipeline best-effort commit-message enrichment and PR-id correlation. -/
def list_pipelines (fetchPipelines : PipelinesQuery → Resp PipelinesPage)
    (lookup : String → Resp CommitInfo) (state : Option String)
    (limit page : Option Nat) (target_branch : Option String) :
    ListPipelinesResult × List PipeReq :=
  if !(validateLimitPage limit page) then (.invalidArg, [])
  else
    let q := mkPipelinesQuery state limit page target_branch
    match fetchPipelines q with
    | .ok d =>
      (.success d.size (jsOrNat page 1) (jsOrNat limit 10)
        (jsNullable d.next) (jsNullable d.previous)
        (d.values.map (processPipeline lookup)),
       .main q :: ((d.values.map pipelineLookupReqs).flatten.map PipeReq.commitLookup))
    | .httpErr s t =>
      (.fetchError s!"Error fetching pipelines: Bitbucket API error: {s} {t}", [.main q])
    | .exn m => (.fetchError s!"Error fetching pipelines: {m}", [.main q])

/-! ## get_pr_details -/

/-- A reviewer entry as projected by the handler. -/
structure Reviewer where
  display_name : String
  approved : Bool
deriving Repr, DecidableEq

/-- A pull request as decoded from the remote service's JSON. -/
structure PR where
  id : Nat
  title : String
  description : String
  state : String
  author : String
  created_on : String
  updated_on : String
  source_branch : String
  destination_branch : String
  html_href : String
  reviewers : Option (List Reviewer)
deriving Repr, DecidableEq

/-- A commit as decoded from the PR commits endpoint.
`author_user_display` models `commit.author.user?.display_name`. -/
structure RawCommit where
  hash : String
  message : String
  author_user_display : Option String
  author_raw : String
  date : String
deriving Repr, DecidableEq

/-- The per-commit record assembled by `get_pr_details`; `diff = none` models
the `diff` key being absent from the object. -/
structure CommitData where
  hash : String
  message : String
  author : String
  date : String
  diff : Option String
deriving Repr, DecidableEq

/-- One element of the `commits` field: either a commit record or, when the
whole commit-list fetch failed, a plain error string. -/
inductive CommitEntry where
  | errText (s : String)
  | commit (c : CommitData)
deriving Repr, DecidableEq

/-- The `pull_request` object of a successful `get_pr_details` response. -/
structure PrDetails where
  id : Nat
  title : String
  state : String
  author : String
  created_on : String
  updated_on : String
  source_branch : String
  destination_branch : String
  html_href : String
  reviewers : List Reviewer
  commits : List CommitEntry
deriving Repr, DecidableEq

/-- Result of the `get_pr_details` tool.  `invalidArg` and `fetchError` carry
`isError: true`; `notFound` renders the text
`"No pull request found for source branch: <branch>"` with no error flag. -/
inductive PrDetailsResult where
  | invalidArg (msg : String)
  | fetchError (msg : String)
  | notFound (branch : String)
  | success (search_method : String) (pr : PrDetails)
deriving Repr, DecidableEq

/-- The `isError` flag of a `get_pr_details` response. -/
def prDetailsIsError : PrDetailsResult → Bool
  | .invalidArg _ => true
  | .fetchError _ => true
  | .notFound _ => false
  | .success _ _ => false

/-- A network request issued by `get_pr_details`. -/
inductive PrReq where
  | prById (id : Nat)
  | searchBranch (branch : String)
  | commitsOf (prId : Nat)
  | diffOf (hash : String)
deriving Repr, DecidableEq

/-- Whether a request is the branch-search request. -/
def PrReq.isSearch : PrReq → Bool
  | .searchBranch _ => true
  | _ => false

/-- Oracles for the four endpoints `get_pr_details` can hit. -/
structure PrOracles where
  prById : Nat → Resp PR
  searchBranch : String → Resp (List PR)
  commitsOf : Nat → Resp (List RawCommit)
  diffOf : String → Resp String

/-- JS `a?.b || c` on the commit author:
`commit.author.user?.display_name || commit.author.raw`. -/
def jsOrElse (a : Option String) (b : String) : String :=
  match a with
  | some s => if s = "" then b else s
  | none => b

/-- The string stored in a commit's `diff` field for each diff-fetch
outcome: the body on 2xx, an error description otherwise. -/
def renderDiff : Resp String → String
  | .ok body => body
  | .httpErr s t => s!"Error fetching diff: {s} {t}"
  | .exn m => s!"Error fetching diff: {m}"

/-- The body of the per-commit loop of `get_pr_details`: builds the commit
record, attaching a `diff` field only when `include_diff` was true. -/
def processCommit (o : PrOracles) (includeDiff : Bool) (c : RawCommit) : CommitData :=
  { hash := c.hash
    message := c.message
    author := jsOrElse c.author_user_display c.author_raw
    date := c.date
    diff := if includeDiff then some (renderDiff (o.diffOf c.hash)) else none }

/-- The `prDetails` object: 1:1 projection of the resolved PR plus the
assembled commits; an absent reviewers field becomes `[]`. -/
def mkPrDetails (p : PR) (commits : List CommitEntry) : PrDetails :=
  { id := p.id
    title := p.title
    state := p.state
    author := p.author
    created_on := p.created_on
    updated_on := p.updated_on
    source_branch := p.source_branch
    destination_branch := p.destination_branch
    html_href := p.html_href
    reviewers := p.reviewers.getD []
    commits := commits }

/-- Continuation of `get_pr_details` once a PR is resolved: fetch its commit
list, then per-commit diffs when requested.  A non-2xx commit-list response
degrades the commits field to one error string; a thrown error reaches the
outer catch. -/
def finishPr (o : PrOracles) (includeDiff : Bool) (sm : String) (p : PR)
    (reqs : List PrReq) : PrDetailsResult × List PrReq :=
  match o.commitsOf p.id with
  | .ok raws =>
    (.success sm (mkPrDetails p (raws.map fun c => .commit (processCommit o includeDiff c))),
     reqs ++ [.commitsOf p.id] ++
       (if includeDiff then raws.map fun c => PrReq.diffOf c.hash else []))
  | .httpErr s t =>
    (.success sm (mkPrDetails p [.errText s!"Error fetching commits: {s} {t}"]),
     reqs ++ [.commitsOf p.id])
  | .exn m =>
    (.fetchError s!"Error fetching PR with diff: {m}", reqs ++ [.commitsOf p.id])

/-- The `get_pr_details` tool.  Mirrors the source: the argument check
`if (!source_branch && !pr_id)` (JS falsiness: absent, `""`, `0`), then
`if (pr_id)` choosing direct lookup versus branch search, `searchData.values`
empty yielding the not-found result and otherwise `values[0]`. -/
def get_pr_details (o : PrOracles) (source_branch : Option String)
    (pr_id : Option Nat) (include_diff : Option Bool) :
    PrDetailsResult × List PrReq :=
  let sbv := source_branch.getD ""
  let prv := pr_id.getD 0
  if sbv = "" ∧ prv = 0 then
    (.invalidArg "Either source_branch or pr_id must be provided", [])
  else
    let includeDiff := include_diff == some true
    if prv ≠ 0 then
      match o.prById prv with
      | .ok p => finishPr o includeDiff s!"pr_id: {prv}" p [.prById prv]
      | .httpErr s t =>
        (.fetchError s!"Error fetching PR with diff: Bitbucket API error: {s} {t}",
         [.prById prv])
      | .exn m => (.fetchError s!"Error fetching PR with diff: {m}", [.prById prv])
    else
      match o.searchBranch sbv with
      | .ok [] => (.notFound sbv, [.searchBranch sbv])
      | .ok (p :: _) => finishPr o includeDiff s!"source_branch: {sbv}" p [.searchBranch sbv]
      | .httpErr s t =>
        (.fetchError s!"Error fetching PR with diff: Bitbucket API error: {s} {t}",
         [.searchBranch sbv])
      | .exn m => (.fetchError s!"Error fetching PR with diff: {m}", [.searchBranch sbv])

/-! ## list_pull_requests -/

/-- Query string parameters of the pull-request listing request;
`target_q` models the optional `q=destination.branch.name="…"` filter. -/
structure PRQuery where
  state : String
  pagelen : Nat
  page : Nat
  target_q : Option String
deriving Repr, DecidableEq

/-- A page of pull requests as returned by the listing endpoint. -/
structure PRPage where
  size : Nat
  next : Option String
  previous : Option String
  values : List PR
deriving Repr, DecidableEq

/-- The per-PR summary record projected by `list_pull_requests`. -/
structure PRSummary where
  id : Nat
  title : String
  description : String
  state : String
  author : String
  created_on : String
  updated_on : String
  source_branch : String
  destination_branch : String
  html_href : String
deriving Repr, DecidableEq

/-- Projection of one raw PR into its listing summary. -/
def toSummary (p : PR) : PRSummary :=
  { id := p.id
    title := p.title
    description := p.description
    state := p.state
    author := p.author
    created_on := p.created_on
    updated_on := p.updated_on
    source_branch := p.source_branch
    destination_branch := p.destination_branch
    html_href := p.html_href }

/-- Result of the `list_pull_requests` tool. -/
inductive ListPRResult where
  | invalidArg
  | fetchError (msg : String)
  | success (total_count : Nat) (page : Nat) (page_length : Nat)
      (next : Option String) (previous : Option String)
      (pull_requests : List PRSummary)
deriving Repr, DecidableEq

/-- The `list_pull_requests` tool: zod validation of `limit`/`page`, one
listing fetch with `pagelen`/`page` taken from the (defaulted) arguments. -/
def list_pull_requests (fetchPRs : PRQuery → Resp PRPage) (state : Option String)
    (limit page : Option Nat) (target_branch : Option String) :
    ListPRResult × List PRQuery :=
  if !(validateLimitPage limit page) then (.invalidArg, [])
  else
    let q : PRQuery :=
      { state := jsOrStr state "OPEN"
        pagelen := jsOrNat limit 50
        page := jsOrNat page 1
        target_q := if truthyStr target_branch then target_branch else none }
    (match fetchPRs q with
     | .ok d =>
       .success d.size (jsOrNat page 1) (jsOrNat limit 50)
         (jsNullable d.next) (jsNullable d.previous) (d.values.map toSummary)
     | .httpErr s t =>
       .fetchError s!"Error fetching pull requests: Bitbucket API error: {s} {t}"
     | .exn m => .fetchError s!"Error fetching pull requests: {m}",
     [q])

/-! ## Comment subsystem (legacy server file: get_pr_comments) -/

/-- The `inline` anchor of a comment: `{from, to, path}`. -/
structure InlineInfo where
  lineFrom : Option Nat
  lineTo : Option Nat
  path : String
deriving Repr, DecidableEq

/-- A raw comment as decoded from the comments endpoint. -/
structure RawComment where
  id : Nat
  content_raw : String
  user_display : String
  created_on : String
  updated_on : String
  ctype : String
  inline : Option InlineInfo
  html_href : Option String
deriving Repr, DecidableEq

/-- The normalized comment record returned by `get_pr_comments`. -/
structure CommentView where
  id : Nat
  content : String
  author : String
  created_on : String
  updated_on : String
  ctype : String
  inline : Option InlineInfo
  html_href : Option String
deriving Repr, DecidableEq

/-- The `data.values.map` body of `get_pr_comments`: the anchor block is
populated (`{from, to, path}`) exactly when the raw record carries inline
metadata, and is `null` otherwise. -/
def normalizeComment (c : RawComment) : CommentView :=
  { id := c.id
    content := c.content_raw
    author := c.user_display
    created_on := c.created_on
    updated_on := c.updated_on
    ctype := c.ctype
    inline :=
      match c.inline with
      | some i => some { lineFrom := i.lineFrom, lineTo := i.lineTo, path := i.path }
      | none => none
    html_href := c.html_href }

/-- The tool names registered by `src/index.ts` (the current server), in
registration order. -/
def registeredTools : List String :=
  ["list_pull_requests", "get_pr_details", "add_pr_comment", "list_pipelines"]

/-- The tool names registered by the legacy server file, in registration
order. -/
def registeredToolsLegacy : List String :=
  ["list_pull_requests", "get_pr_comments", "get_pr_with_diff", "add_pr_comment"]

/-! ## Lemmas about the correlation heuristic -/

lemma takeDigits_isEmpty (cs : List Char) :
    (takeDigits cs).isEmpty = !(cs.head?.any Char.isDigit) := by
  cases cs with
  | nil => rfl
  | cons c cs =>
    simp only [takeDigits, List.head?_cons, Option.any_some]
    by_cases h : c.isDigit <;> simp [h]

lemma takeDigits_append_of_all (ds rest : List Char)
    (hds : ds.all Char.isDigit = true)
    (hrest : rest.head?.any Char.isDigit = false) :
    takeDigits (ds ++ rest) = ds := by
  induction ds with
  | nil =>
    cases rest with
    | nil => rfl
    | cons r rs =>
      simp only [List.head?_cons, Option.any_some] at hrest
      simp [takeDigits, hrest]
  | cons d ds ih =>
    simp only [List.all_cons, Bool.and_eq_true] at hds
    simp [takeDigits, hds.1, ih hds.2]

lemma findHashMatch_eq_none_iff (l : List Char) :
    findHashMatch l = none ↔ hasPrRefB l = false := by
  induction l with
  | nil => simp [findHashMatch, hasPrRefB]
  | cons c cs ih =>
    by_cases hc : c = '#'
    · subst hc
      simp only [findHashMatch, if_pos rfl, hasPrRefB, beq_self_eq_true, Bool.true_and]
      rw [takeDigits_isEmpty]
      cases hd : cs.head?.any Char.isDigit <;> simp [ih]
    · simp [findHashMatch, hasPrRefB, hc, ih]

lemma hasPrRefB_iff_exists (l : List Char) :
    hasPrRefB l = true ↔
      ∃ i c, l.get? i = some '#' ∧ l.get? (i + 1) = some c ∧ c.isDigit = true := by
  induction l with
  | nil => simp [hasPrRefB]
  | cons a as ih =>
    simp only [hasPrRefB, Bool.or_eq_true, Bool.and_eq_true, beq_iff_eq]
    constructor
    · rintro (⟨rfl, hd⟩ | h)
      · cases has : as.head? with
        | none => rw [has] at hd; simp at hd
        | some c =>
          rw [has] at hd
          simp only [Option.any_some] at hd
          refine ⟨0, c, rfl, ?_, hd⟩
          cases as with
          | nil => simp at has
          | cons b bs => simp only [List.head?_cons] at has; simp [has]
      · obtain ⟨i, c, h1, h2, h3⟩ := ih.mp h
        exact ⟨i + 1, c, by simpa using h1, by simpa using h2, h3⟩
    · rintro ⟨i, c, h1, h2, h3⟩
      cases i with
      | zero =>
        left
        simp only [List.get?_cons_zero, Option.some.injEq] at h1
        refine ⟨h1, ?_⟩
        simp only [List.get?_cons_succ] at h2
        cases as with
        | nil => simp at h2
        | cons b bs =>
          simp only [List.get?_cons_zero, Option.some.injEq] at h2
          simp [List.head?_cons, h2, h3]
      | succ j =>
        right
        exact ih.mpr ⟨j, c, by simpa using h1, by simpa using h2, h3⟩

lemma findHashMatch_first (pre ds rest : List Char)
    (hpre : hasPrRefB pre = false)
    (hne : ds.isEmpty = false)
    (hds : ds.all Char.isDigit = true)
    (hrest : rest.head?.any Char.isDigit = false) :
    findHashMatch (pre ++ '#' :: (ds ++ rest)) = some ds := by
  induction pre with
  | nil =>
    simp only [List.nil_append, findHashMatch, if_pos rfl]
    rw [takeDigits_append_of_all ds rest hds hrest]
    simp [hne]
  | cons c pre ih =>
    by_cases hc : c = '#'
    · subst hc
      simp only [hasPrRefB, beq_self_eq_true, Bool.true_and, Bool.or_eq_false_iff] at hpre
      obtain ⟨hhd, hpre'⟩ := hpre
      have hemp : (takeDigits (pre ++ '#' :: (ds ++ rest))).isEmpty = true := by
        rw [takeDigits_isEmpty]
        cases pre with
        | nil => simp
        | cons b bs =>
          simp only [List.head?_cons, Option.any_some] at hhd
          simp [hhd]
      simp [findHashMatch, hemp, ih hpre']
    · have hpre' : hasPrRefB pre = false := by
        simp only [hasPrRefB, Bool.or_eq_false_iff, Bool.and_eq_false_iff] at hpre
        exact hpre.2
      simp [findHashMatch, hc, ih hpre']

lemma truthyStr_eq_false (v : Option String) :
    truthyStr v = false ↔ v = none ∨ v = some "" := by
  cases v with
  | none => simp [truthyStr]
  | some s => simp [truthyStr]

lemma extractPrId_of_not_truthy (m : Option String) (h : truthyStr m = false) :
    extractPrId m = none := by
  rcases (truthyStr_eq_false m).mp h with rfl | rfl
  · rfl
  · rfl

/-! ## Lemmas about get_pr_details -/

lemma finishPr_fst_ne_invalidArg (o : PrOracles) (incl : Bool) (sm : String)
    (p : PR) (reqs : List PrReq) (m : String) :
    (finishPr o incl sm p reqs).1 ≠ .invalidArg m := by
  unfold finishPr
  cases o.commitsOf p.id <;> simp

lemma finishPr_fst_sm (o : PrOracles) (incl : Bool) (sm : String) (p : PR)
    (reqs : List PrReq) (sm' : String) (det : PrDetails)
    (h : (finishPr o incl sm p reqs).1 = .success sm' det) : sm' = sm := by
  unfold finishPr at h
  cases hc : o.commitsOf p.id <;> rw [hc] at h <;> simp only [PrDetailsResult.success.injEq] at h
  · exact h.1.symm
  · exact h.1.symm
  · exact absurd h (by simp)

lemma finishPr_snd_head (o : PrOracles) (incl : Bool) (sm : String) (p : PR)
    (r : PrReq) (rs : List PrReq) :
    (finishPr o incl sm p (r :: rs)).2.head? = some r := by
  unfold finishPr
  cases o.commitsOf p.id <;> simp

lemma finishPr_snd_ne_nil (o : PrOracles) (incl : Bool) (sm : String) (p : PR)
    (r : PrReq) (rs : List PrReq) :
    (finishPr o incl sm p (r :: rs)).2 ≠ [] := by
  unfold finishPr
  cases o.commitsOf p.id <;> simp

lemma finishPr_search_free (o : PrOracles) (incl : Bool) (sm : String) (p : PR)
    (reqs : List PrReq) (hreqs : ∀ x ∈ reqs, x.isSearch = false) :
    ∀ x ∈ (finishPr o incl sm p reqs).2, x.isSearch = false := by
  unfold finishPr
  cases hc : o.commitsOf p.id with
  | ok raws =>
    intro x hx
    simp only [List.append_assoc, List.mem_append, List.mem_singleton] at hx
    rcases hx with hx | hx | hx
    · exact hreqs x hx
    · subst hx; rfl
    · cases incl with
      | true =>
        simp only [if_true] at hx
        obtain ⟨cc, -, rfl⟩ := List.mem_map.mp hx
        rfl
      | false => simp at hx
  | httpErr s t =>
    intro x hx
    simp only [List.mem_append, List.mem_singleton] at hx
    rcases hx with hx | hx
    · exact hreqs x hx
    · subst hx; rfl
  | exn m =>
    intro x hx
    simp only [List.mem_append, List.mem_singleton] at hx
    rcases hx with hx | hx
    · exact hreqs x hx
    · subst hx; rfl

lemma get_pr_details_byId (o : PrOracles) (sb : Option String) (n : Nat)
    (d : Option Bool) (hn : n ≠ 0) :
    get_pr_details o sb (some n) d =
      match o.prById n with
      | .ok p => finishPr o (d == some true) s!"pr_id: {n}" p [.prById n]
      | .httpErr s t =>
        (.fetchError s!"Error fetching PR with diff: Bitbucket API error: {s} {t}",
         [.prById n])
      | .exn m => (.fetchError s!"Error fetching PR with diff: {m}", [.prById n]) := by
  unfold get_pr_details
  simp [hn]

lemma get_pr_details_byBranch (o : PrOracles) (s : String) (d : Option Bool)
    (hs : s ≠ "") :
    get_pr_details o (some s) none d =
      match o.searchBranch s with
      | .ok [] => (.notFound s, [.searchBranch s])
      | .ok (p :: _) =>
        finishPr o (d == some true) s!"source_branch: {s}" p [.searchBranch s]
      | .httpErr st t =>
        (.fetchError s!"Error fetching PR with diff: Bitbucket API error: {st} {t}",
         [.searchBranch s])
      | .exn m => (.fetchError s!"Error fetching PR with diff: {m}", [.searchBranch s]) := by
  unfold get_pr_details
  simp [hs]

/-! ## Sample instances used by the witnesses -/

/-- A commit lookup oracle that always succeeds. -/
def constLookup : String → Resp CommitInfo := fun _ => .ok { message := "ok" }

/-- A commit lookup oracle that always returns a 500 response. -/
def failLookup : String → Resp CommitInfo := fun _ => .httpErr 500 "Internal Server Error"

/-- A pipeline with no target at all. -/
def emptyPipeline : RawPipeline :=
  { state := "SUCCESSFUL", created_on := "t0", completed_on := none,
    run_number := 1, duration_in_seconds := 5, target := none }

/-- A pipeline whose payload carries a commit hash but no commit message. -/
def hashOnlyPipeline : RawPipeline :=
  { state := "FAILED", created_on := "t1", completed_on := some "t2",
    run_number := 2, duration_in_seconds := 30,
    target := some { ref_name := some "main",
                     commit := some { hash := some "abc123", message := none } } }

/-- A sample pull request. -/
def samplePR1 : PR :=
  { id := 7, title := "T", description := "D", state := "OPEN", author := "A",
    created_on := "c", updated_on := "u", source_branch := "feat",
    destination_branch := "main", html_href := "url", reviewers := none }

/-- A sample commit whose diff fetch will fail below. -/
def commitA : RawCommit :=
  { hash := "h1", message := "m1", author_user_display := some "Alice",
    author_raw := "raw1", date := "d1" }

/-- A sample commit whose diff fetch will succeed below. -/
def commitB : RawCommit :=
  { hash := "h2", message := "m2", author_user_display := none,
    author_raw := "raw2", date := "d2" }

/-- Oracles where every endpoint succeeds. -/
def okOracles : PrOracles :=
  { prById := fun _ => .ok samplePR1
    searchBranch := fun _ => .ok [samplePR1]
    commitsOf := fun _ => .ok [commitA, commitB]
    diffOf := fun _ => .ok "DIFF" }

/-- Oracles whose branch search finds nothing. -/
def emptySearchOracles : PrOracles :=
  { okOracles with searchBranch := fun _ => .ok [] }

/-- Oracles whose commit-list fetch returns a 404. -/
def commitsFailOracles : PrOracles :=
  { okOracles with commitsOf := fun _ => .httpErr 404 "Not Found" }

/-- Oracles where exactly the diff of `commitA` fails with a 500. -/
def diffFailOracles : PrOracles :=
  { okOracles with diffOf := fun h => if h = "h1" then .httpErr 500 "Internal" else .ok "DIFF2" }

/-! ## Claim theorems -/

/-- C2: `get_pr_details` with both selectors absent fails with the
invalid-argument error ("Either source_branch or pr_id must be provided",
`isError: true`) and issues zero network calls; with exactly one selector
supplied (a nonempty branch, or a nonzero id) resolution proceeds: no
invalid-argument error and at least one network request. -/
theorem C2_get_pr_details_selector_validation (o : PrOracles) (d : Option Bool) :
    get_pr_details o none none d =
      (.invalidArg "Either source_branch or pr_id must be provided", [])
    ∧ (∀ s : String, s ≠ "" →
        (∀ m, (get_pr_details o (some s) none d).1 ≠ .invalidArg m)
        ∧ (get_pr_details o (some s) none d).2 ≠ [])
    ∧ (∀ n : Nat, n ≠ 0 →
        (∀ m, (get_pr_details o none (some n) d).1 ≠ .invalidArg m)
        ∧ (get_pr_details o none (some n) d).2 ≠ []) := by
  refine ⟨rfl, ?_, ?_⟩
  · intro s hs
    rw [get_pr_details_byBranch o s d hs]
    cases hb : o.searchBranch s with
    | ok values =>
      cases values with
      | nil => exact ⟨by simp, by simp⟩
      | cons p rest =>
        exact ⟨fun m => finishPr_fst_ne_invalidArg o _ _ p _ m,
               finishPr_snd_ne_nil o _ _ p _ _⟩
    | httpErr st t => exact ⟨by simp, by simp⟩
    | exn m => exact ⟨by simp, by simp⟩
  · intro n hn
    rw [get_pr_details_byId o none n d hn]
    cases hb : o.prById n with
    | ok p =>
      exact ⟨fun m => finishPr_fst_ne_invalidArg o _ _ p _ m,
             finishPr_snd_ne_nil o _ _ p _ _⟩
    | httpErr st t => exact ⟨by simp, by simp⟩
    | exn m => exact ⟨by simp, by simp⟩

/-- C2 witness: both selectors absent is rejected with no requests;
a single nonzero id proceeds. -/
theorem C2_get_pr_details_selector_validation_witness :
    get_pr_details okOracles none none none =
      (.invalidArg "Either source_branch or pr_id must be provided", [])
    ∧ (get_pr_details okOracles none (some 7) none).2 ≠ [] :=
  ⟨(C2_get_pr_details_selector_validation okOracles none).1,
   ((C2_get_pr_details_selector_validation okOracles none).2.2 7 (by decide)).2⟩

/-- C9: supplying both a nonzero `pr_id` and a `source_branch` is not
rejected: the PR is resolved directly by id (the first request is the
by-id fetch), no branch-search request is ever issued, and a successful
response reports `search_method` as the `pr_id`. -/
theorem C9_get_pr_details_both_selectors_prefers_id (o : PrOracles)
    (sb : Option String) (n : Nat) (d : Option Bool) (hn : n ≠ 0) :
    (∀ m, (get_pr_details o sb (some n) d).1 ≠ .invalidArg m)
    ∧ (get_pr_details o sb (some n) d).2.head? = some (.prById n)
    ∧ (∀ x ∈ (get_pr_details o sb (some n) d).2, x.isSearch = false)
    ∧ (∀ sm det, (get_pr_details o sb (some n) d).1 = .success sm det →
        sm = s!"pr_id: {n}") := by
  rw [get_pr_details_byId o sb n d hn]
  cases hb : o.prById n with
  | ok p =>
    refine ⟨fun m => finishPr_fst_ne_invalidArg o _ _ p _ m,
            finishPr_snd_head o _ _ p _ _, ?_, ?_⟩
    · exact finishPr_search_free o _ _ p _ (by intro x hx; simp at hx; subst hx; rfl)
    · exact fun sm det h => finishPr_fst_sm o _ _ p _ sm det h
  | httpErr st t => exact ⟨by simp, by simp, by simp [PrReq.isSearch], by simp⟩
  | exn m => exact ⟨by simp, by simp, by simp [PrReq.isSearch], by simp⟩

/-- C9 witness: both selectors supplied, id 7 wins. -/
theorem C9_get_pr_details_both_selectors_prefers_id_witness :
    (get_pr_details okOracles (some "feat") (some 7) none).2.head? =
      some (.prById 7) :=
  (C9_get_pr_details_both_selectors_prefers_id okOracles (some "feat") 7 none
    (by decide)).2.1

/-- C10: `get_pr_details` treats `pr_id = 0` exactly like an absent `pr_id`:
the whole operation is extensionally unchanged; with no branch it is the
invalid-argument error, and with a (nonempty) branch the branch-search path
is taken (the first request is the branch search). -/
theorem C10_get_pr_details_zero_id_is_absent (o : PrOracles) (sb : Option String)
    (d : Option Bool) :
    get_pr_details o sb (some 0) d = get_pr_details o sb none d
    ∧ get_pr_details o none (some 0) d =
        (.invalidArg "Either source_branch or pr_id must be provided", [])
    ∧ (∀ s : String, s ≠ "" →
        (get_pr_details o (some s) (some 0) d).2.head? = some (.searchBranch s)) := by
  refine ⟨rfl, rfl, ?_⟩
  · intro s hs
    show (get_pr_details o (some s) (some 0) d).2.head? = some (.searchBranch s)
    have he : get_pr_details o (some s) (some 0) d = get_pr_details o (some s) none d := rfl
    rw [he, get_pr_details_byBranch o s d hs]
    cases hb : o.searchBranch s with
    | ok values =>
      cases values with
      | nil => rfl
      | cons p rest => exact finishPr_snd_head o _ _ p _ _
    | httpErr st t => rfl
    | exn m => rfl

/-- C10 witness: id 0 alone is rejected; id 0 with a branch searches by
branch. -/
theorem C10_get_pr_details_zero_id_is_absent_witness :
    get_pr_details okOracles none (some 0) none =
      (.invalidArg "Either source_branch or pr_id must be provided", [])
    ∧ (get_pr_details okOracles (some "feat") (some 0) none).2.head? =
        some (.searchBranch "feat") :=
  ⟨(C10_get_pr_details_zero_id_is_absent okOracles none none).2.1,
   (C10_get_pr_details_zero_id_is_absent okOracles (some "feat") none).2.2
     "feat" (by decide)⟩

/-- C1: for every pipeline returned by `list_pipelines`, the derived `pr_id`
is computed from the resolved commit message as the first match of `#`
followed by one or more decimal digits, read in decimal; no such token (or no
message) yields null.  `"Fix login bug #42"` gives 42 and
`"#7 and #12 both referenced"` gives 7. -/
theorem C1_pipeline_pr_id_first_hash_match
    (lookup : String → Resp CommitInfo) (p : RawPipeline) :
    (processPipeline lookup p).pr_id = extractPrId (resolvedMessage lookup p)
    ∧ extractPrId none = none
    ∧ (∀ m : String, hasPrRefB m.data = false → extractPrId (some m) = none)
    ∧ (∀ l : List Char, hasPrRefB l = true ↔
        ∃ i c, l.get? i = some '#' ∧ l.get? (i + 1) = some c ∧ c.isDigit = true)
    ∧ (∀ pre ds rest : List Char, hasPrRefB pre = false → ds.isEmpty = false →
        ds.all Char.isDigit = true → rest.head?.any Char.isDigit = false →
        extractPrId (some (String.mk (pre ++ '#' :: (ds ++ rest)))) =
          some (digitsToNat ds))
    ∧ extractPrId (some "Fix login bug #42") = some 42
    ∧ extractPrId (some "#7 and #12 both referenced") = some 7 := by
  refine ⟨rfl, rfl, ?_, hasPrRefB_iff_exists, ?_, by decide, by decide⟩
  · intro m hm
    simp [extractPrId, (findHashMatch_eq_none_iff m.data).mpr hm]
  · intro pre ds rest hpre hne hds hrest
    simp [extractPrId, findHashMatch_first pre ds rest hpre hne hds hrest]

/-- C1 witness: the no-token case and the first-match case evaluated at
concrete inputs. -/
theorem C1_pipeline_pr_id_first_hash_match_witness :
    extractPrId (some "Hello world") = none
    ∧ extractPrId (some (String.mk ("ab ".data ++ '#' :: ("42".data ++ " x".data)))) =
        some (digitsToNat "42".data) :=
  ⟨(C1_pipeline_pr_id_first_hash_match constLookup emptyPipeline).2.2.1
      "Hello world" (by decide),
   (C1_pipeline_pr_id_first_hash_match constLookup emptyPipeline).2.2.2.2.1
      "ab ".data "42".data " x".data (by decide) (by decide) (by decide) (by decide)⟩

/-- C4: with `include_diff` true each commit's diff is fetched independently
(the record depends only on that commit's own diff fetch); a failed fetch
(non-2xx or thrown) stores an error description in that commit's `diff`
field while other commits keep their true diffs, and the operation still
succeeds; with `include_diff` false the commit records carry no `diff` field
at all (`none`, modelling the absent key). -/
theorem C4_commit_diffs_isolated (o : PrOracles) (c : RawCommit) (p : PR)
    (sm : String) (reqs : List PrReq) :
    (processCommit o true c).diff = some (renderDiff (o.diffOf c.hash))
    ∧ (∀ s t, renderDiff (.httpErr s t) = s!"Error fetching diff: {s} {t}")
    ∧ (∀ m, renderDiff (.exn m) = s!"Error fetching diff: {m}")
    ∧ (∀ b, renderDiff (.ok b) = b)
    ∧ (∀ o' : PrOracles, o'.diffOf c.hash = o.diffOf c.hash →
        processCommit o' true c = processCommit o true c)
    ∧ (processCommit o false c).diff = none
    ∧ (∀ raws, o.commitsOf p.id = .ok raws →
        (finishPr o true sm p reqs).1 =
          .success sm (mkPrDetails p (raws.map fun cc => .commit (processCommit o true cc)))
        ∧ prDetailsIsError (finishPr o true sm p reqs).1 = false
        ∧ (finishPr o true sm p reqs).2 =
            reqs ++ [.commitsOf p.id] ++ raws.map fun cc => PrReq.diffOf cc.hash) := by
  refine ⟨rfl, fun s t => rfl, fun m => rfl, fun b => rfl, ?_, rfl, ?_⟩
  · intro o' h
    simp [processCommit, h]
  · intro raws h
    refine ⟨by simp [finishPr, h], by simp [finishPr, h, prDetailsIsError], by simp [finishPr, h]⟩

/-- C4 witness: one commit's 500 diff becomes an error string, the sibling
commit keeps its diff, the operation succeeds, and without `include_diff`
no diff field exists. -/
theorem C4_commit_diffs_isolated_witness :
    (processCommit diffFailOracles true commitA).diff =
      some "Error fetching diff: 500 Internal"
    ∧ (processCommit diffFailOracles true commitB).diff = some "DIFF2"
    ∧ (processCommit diffFailOracles false commitA).diff = none
    ∧ prDetailsIsError (finishPr diffFailOracles true "pr_id: 7" samplePR1 []).1 = false := by
  refine ⟨?_, ?_, ?_, ?_⟩
  · rw [(C4_commit_diffs_isolated diffFailOracles commitA samplePR1 "pr_id: 7" []).1]
    decide
  · rw [(C4_commit_diffs_isolated diffFailOracles commitB samplePR1 "pr_id: 7" []).1]
    decide
  · exact (C4_commit_diffs_isolated diffFailOracles commitA samplePR1 "pr_id: 7" []).2.2.2.2.2.1
  · exact ((C4_commit_diffs_isolated diffFailOracles commitA samplePR1 "pr_id: 7" []).2.2.2.2.2.2
      [commitA, commitB] rfl).2.1

/-- C5: a non-2xx commit-list response inside `get_pr_details` degrades the
`commits` field to a single error string carrying status and status text,
the rest of the PR details are still assembled, and the operation reports
success (no error flag). -/
theorem C5_commit_list_failure_degrades (o : PrOracles) (sb : Option String)
    (n : Nat) (d : Option Bool) (p : PR) (s : Nat) (t : String) (hn : n ≠ 0)
    (hpr : o.prById n = .ok p) (hc : o.commitsOf p.id = .httpErr s t) :
    (get_pr_details o sb (some n) d).1 =
      .success s!"pr_id: {n}"
        (mkPrDetails p [.errText s!"Error fetching commits: {s} {t}"])
    ∧ prDetailsIsError (get_pr_details o sb (some n) d).1 = false := by
  rw [get_pr_details_byId o sb n d hn, hpr]
  exact ⟨by simp [finishPr, hc], by simp [finishPr, hc, prDetailsIsError]⟩

/-- C5 witness: a 404 on the commit list still yields a successful response
whose commits field is one error string. -/
theorem C5_commit_list_failure_degrades_witness :
    (get_pr_details commitsFailOracles none (some 7) none).1 =
      .success "pr_id: 7"
        (mkPrDetails samplePR1 [.errText "Error fetching commits: 404 Not Found"])
    ∧ prDetailsIsError (get_pr_details commitsFailOracles none (some 7) none).1 = false := by
  have h := C5_commit_list_failure_degrades commitsFailOracles none 7 none samplePR1
    404 "Not Found" (by decide) rfl rfl
  refine ⟨?_, h.2⟩
  rw [h.1]
  decide

/-- C6: resolving by `source_branch` only, an empty search result yields a
successful (non-error) not-found result naming the queried branch, and a
nonempty result selects exactly the first element of the remote service's
list — the continuation does not depend on the rest of the result list. -/
theorem C6_branch_resolution_first_match (o : PrOracles) (s : String)
    (d : Option Bool) (hs : s ≠ "") :
    (o.searchBranch s = .ok [] →
      (get_pr_details o (some s) none d).1 = .notFound s
      ∧ prDetailsIsError (get_pr_details o (some s) none d).1 = false)
    ∧ (∀ p rest, o.searchBranch s = .ok (p :: rest) →
      get_pr_details o (some s) none d =
        finishPr o (d == some true) s!"source_branch: {s}" p [.searchBranch s]) := by
  constructor
  · intro he
    rw [get_pr_details_byBranch o s d hs, he]
    exact ⟨rfl, rfl⟩
  · intro p rest he
    rw [get_pr_details_byBranch o s d hs, he]

/-- C6 witness: an empty search is a successful not-found naming the branch;
a two-element search result is processed from its first element. -/
theorem C6_branch_resolution_first_match_witness :
    ((get_pr_details emptySearchOracles (some "feat") none none).1 = .notFound "feat"
      ∧ prDetailsIsError (get_pr_details emptySearchOracles (some "feat") none none).1 = false)
    ∧ get_pr_details okOracles (some "feat") none none =
        finishPr okOracles false "source_branch: feat" samplePR1 [.searchBranch "feat"] := by
  refine ⟨(C6_branch_resolution_first_match emptySearchOracles "feat" none (by decide)).1 rfl, ?_⟩
  rw [(C6_branch_resolution_first_match okOracles "feat" none (by decide)).2 samplePR1 [] rfl]
  rfl

/-- C8: in `list_pipelines`, a pipeline lacking a (truthy) commit message but
carrying a commit hash triggers exactly one commit-lookup request; if that
lookup fails (non-2xx or thrown), the failure is swallowed: the pipeline is
still returned with its payload unchanged, no resolved message and a null
`pr_id`, and each pipeline's enrichment depends only on its own lookup, the
batch being an order-preserving per-element map. -/
theorem C8_pipeline_lookup_failure_swallowed
    (lookup : String → Resp CommitInfo) (p : RawPipeline) (h : String)
    (hmsg : truthyStr (rawMessage p) = false)
    (hhash : rawHash p = some h) (hne : h ≠ "")
    (hfail : ∀ ci, lookup h ≠ .ok ci) :
    pipelineLookupReqs p = [h]
    ∧ (processPipeline lookup p).pr_id = none
    ∧ (processPipeline lookup p).target = p.target
    ∧ truthyStr (resolvedMessage lookup p) = false
    ∧ (∀ l1 l2 : String → Resp CommitInfo, ∀ q : RawPipeline,
        (∀ hq, rawHash q = some hq → l1 hq = l2 hq) →
        processPipeline l1 q = processPipeline l2 q)
    ∧ (∀ (fetchPipelines : PipelinesQuery → Resp PipelinesPage)
        (state : Option String) (limit page : Option Nat) (tb : Option String)
        (d : PipelinesPage),
        validateLimitPage limit page = true →
        fetchPipelines (mkPipelinesQuery state limit page tb) = .ok d →
        (list_pipelines fetchPipelines lookup state limit page tb).1 =
          .success d.size (jsOrNat page 1) (jsOrNat limit 10)
            (jsNullable d.next) (jsNullable d.previous)
            (d.values.map (processPipeline lookup))) := by
  have hn : needsLookup p = true := by
    unfold needsLookup
    rw [hmsg, hhash]
    simp [truthyStr, hne]
  have hlr : lookupResult lookup p = none := by
    cases hl : lookup h with
    | ok ci => exact absurd hl (hfail ci)
    | httpErr s t => simp [lookupResult, hn, hhash, hl]
    | exn m => simp [lookupResult, hn, hhash, hl]
  have hres : resolvedMessage lookup p = rawMessage p := by
    simp [resolvedMessage, hlr]
  refine ⟨?_, ?_, ?_, ?_, ?_, ?_⟩
  · simp [pipelineLookupReqs, hn, hhash]
  · show extractPrId (resolvedMessage lookup p) = none
    rw [hres]
    exact extractPrId_of_not_truthy _ hmsg
  · simp [processPipeline, hlr]
  · rw [hres]; exact hmsg
  · intro l1 l2 q hagree
    have heq : lookupResult l1 q = lookupResult l2 q := by
      unfold lookupResult
      cases hq : rawHash q with
      | none => rfl
      | some hh => simp only [hagree hh hq]
    simp [processPipeline, resolvedMessage, heq]
  · intro fp state limit page tb d hval hfetch
    simp [list_pipelines, hval, hfetch]

/-- C8 witness: a 500 commit lookup on a message-less pipeline is swallowed
and yields a null derived id. -/
theorem C8_pipeline_lookup_failure_swallowed_witness :
    pipelineLookupReqs hashOnlyPipeline = ["abc123"]
    ∧ (processPipeline failLookup hashOnlyPipeline).pr_id = none :=
  ⟨(C8_pipeline_lookup_failure_swallowed failLookup hashOnlyPipeline "abc123"
      rfl rfl (by decide) (fun ci hci => Resp.noConfusion hci)).1,
   (C8_pipeline_lookup_failure_swallowed failLookup hashOnlyPipeline "abc123"
      rfl rfl (by decide) (fun ci hci => Resp.noConfusion hci)).2.1⟩

/-- A pull-request listing oracle that returns an empty page. -/
def fetchPRsOk : PRQuery → Resp PRPage :=
  fun _ => .ok { size := 0, next := none, previous := none, values := [] }

/-- C7: `list_pull_requests` rejects a supplied `limit` outside `[1, 100]`
(in particular 0 and 101) and a supplied `page` below 1, before any network
request; a limit within `[1, 100]` is passed through as the page size
unchanged. -/
theorem C7_list_pull_requests_limit_bounds (fetchPRs : PRQuery → Resp PRPage)
    (state : Option String) (limit page : Option Nat) (tb : Option String) :
    (limit = some 0 →
      list_pull_requests fetchPRs state limit page tb = (.invalidArg, []))
    ∧ (limit = some 101 →
      list_pull_requests fetchPRs state limit page tb = (.invalidArg, []))
    ∧ (∀ l, limit = some l → (l < 1 ∨ 100 < l) →
      list_pull_requests fetchPRs state limit page tb = (.invalidArg, []))
    ∧ (page = some 0 →
      list_pull_requests fetchPRs state limit page tb = (.invalidArg, []))
    ∧ (∀ l, limit = some l → 1 ≤ l → l ≤ 100 →
      ∀ q ∈ (list_pull_requests fetchPRs state limit page tb).2, q.pagelen = l) := by
  have hbad : ∀ l, limit = some l → (l < 1 ∨ 100 < l) →
      list_pull_requests fetchPRs state limit page tb = (.invalidArg, []) := by
    rintro l rfl hr
    have hv : validateLimitPage (some l) page = false := by
      unfold validateLimitPage validNum
      rcases hr with h | h
      · have hd : decide (1 ≤ l) = false := by simp; omega
        simp [hd]
      · have hd : decide (l ≤ 100) = false := by simp; omega
        simp [hd]
    simp [list_pull_requests, hv]
  refine ⟨fun h => hbad 0 h (Or.inl (by omega)),
          fun h => hbad 101 h (Or.inr (by omega)), hbad, ?_, ?_⟩
  · rintro rfl
    have hv : validateLimitPage limit (some 0) = false := by
      unfold validateLimitPage validNum
      simp
    simp [list_pull_requests, hv]
  · rintro l rfl h1 h2 q hq
    cases hv : validateLimitPage (some l) page with
    | false => simp [list_pull_requests, hv] at hq
    | true =>
      simp [list_pull_requests, hv] at hq
      subst hq
      have hl0 : l ≠ 0 := by omega
      simp [jsOrNat, hl0]

/-- C7 witness: limits 0 and 101 are rejected with no request; limit 10 is
forwarded as the page size. -/
theorem C7_list_pull_requests_limit_bounds_witness :
    list_pull_requests fetchPRsOk none (some 0) none none = (.invalidArg, [])
    ∧ list_pull_requests fetchPRsOk none (some 101) none none = (.invalidArg, [])
    ∧ ∀ q ∈ (list_pull_requests fetchPRsOk (some "MERGED") (some 10) (some 2) none).2,
        q.pagelen = 10 :=
  ⟨(C7_list_pull_requests_limit_bounds fetchPRsOk none (some 0) none none).1 rfl,
   (C7_list_pull_requests_limit_bounds fetchPRsOk none (some 101) none none).2.1 rfl,
   (C7_list_pull_requests_limit_bounds fetchPRsOk (some "MERGED") (some 10)
     (some 2) none).2.2.2.2 10 rfl (by decide) (by decide)⟩

/-- C3 counterexample: the claim asserts the tool surface includes
`add_pr_inline_comment` and `view_pr_comments`, but neither name is
registered by either server file. -/
theorem C3_tool_surface_counterexample :
    registeredTools.contains "add_pr_inline_comment" = false
    ∧ registeredToolsLegacy.contains "add_pr_inline_comment" = false
    ∧ registeredTools.contains "view_pr_comments" = false
    ∧ registeredToolsLegacy.contains "view_pr_comments" = false := by decide

/-- C3 amended: the surface has no `add_pr_inline_comment` or
`view_pr_comments`; comments are read via the legacy `get_pr_comments`,
whose normalization populates the inline anchor (path and from/to lines)
exactly when the remote record carries inline metadata — a comment without
inline metadata reads back with a null anchor — and writing goes through the
general `add_pr_comment` only. -/
theorem C3_comment_anchor_normalization (c : RawComment) :
    (normalizeComment c).inline = c.inline
    ∧ ((normalizeComment c).inline).isSome = c.inline.isSome
    ∧ (normalizeComment c).content = c.content_raw
    ∧ registeredToolsLegacy.contains "get_pr_comments" = true
    ∧ registeredTools.contains "add_pr_comment" = true := by
  refine ⟨?_, ?_, rfl, by decide, by decide⟩
  · cases hc : c.inline <;> simp [normalizeComment, hc]
  · cases hc : c.inline <;> simp [normalizeComment, hc]

end McpBitbucket
